import Mathlib

/-!
Verification of the TaleCanvas orchestration core (src/app.py) against its
natural-language specification.

The development shallowly embeds the Python code:

* `apiRetry` embeds the retry decorator `api_retry` (app.py lines 36-124);
  the unit of work is a function from the attempt index to an outcome, and
  the embedding returns the final outcome together with the number of
  invocations and the list of backoff sleeps performed.
* the batch machine (`wfStep`, `runBatch`) embeds `generate_images_parallel`
  (app.py lines 932-984) as a trace semantics: an execution of the thread
  pool is a list of timed start / finish / collect events, and `runBatch`
  simultaneously checks that the trace is realizable and computes the state
  reached (the shared quota flag, the per-task computed results, and the
  dictionary of collected results).
* `createStorybook` embeds the pipeline controller `create_storybook`
  (app.py lines 1048-1189), `regenerate` embeds `regenerate_failed_images`
  (app.py lines 1191-1277), and `applyOp`/`runOps` embed the mutable
  `StoryBookGenerator` instance state (app.py lines 294-310, 1958-1972).
-/

/-! ## String helpers

Python `needle in hay` on strings is substring containment, and
`s.lower()` lowercases; both are translated on the character list of the
string. -/

/-- Prefix test on character lists: `isPrefList needle hay` holds when
`needle` is an initial segment of `hay`. -/
def isPrefList : List Char → List Char → Bool
  | [], _ => true
  | _ :: _, [] => false
  | a :: as, b :: bs => a = b && isPrefList as bs

/-- Substring test on character lists, the meaning of Python
`needle in hay`. The empty needle is contained in everything. -/
def hasSubList (needle : List Char) : List Char → Bool
  | [] => isPrefList needle []
  | a :: hay => isPrefList needle (a :: hay) || hasSubList needle hay

/-- Python `needle in hay` for strings. -/
def strContainsSub (hay needle : String) : Bool :=
  hasSubList needle.data hay.data

/-- Python `s.lower()` (basic-latin lowercasing, as performed by the code
on its ASCII error keywords). -/
def lowerStr (s : String) : String :=
  ⟨s.data.map Char.toLower⟩

/-! ## Retry policy (`api_retry`, app.py lines 36-124) -/

/-- Configuration of the decorator `api_retry(max_retries, delay, backoff,
jitter, retry_on_quota)`. -/
structure RetryConfig where
  maxRetries : Nat
  delay : Nat
  backoff : Nat
  jitter : Bool
  retryOnQuota : Bool
deriving DecidableEq, Repr

/-- Value returned by one invocation of the wrapped function: a dict
carrying a `success` flag (with its `error` and `error_type` entries,
absent entries read as the empty string by `result.get`), or any other
value, which the wrapper returns unchanged (app.py lines 57, 93-94). -/
inductive CallRet
  | dict (success : Bool) (error : String) (errorType : String)
  | other
deriving DecidableEq, Repr

/-- Outcome of one invocation of the wrapped function: it returns a value
or raises an exception with the given message. -/
inductive CallOutcome
  | returns (v : CallRet)
  | raises (msg : String)
deriving DecidableEq, Repr

/-- Outcome of the whole wrapped call: a returned value or a propagated
exception. -/
inductive RetryResult
  | ret (v : CallRet)
  | raise (msg : String)
deriving DecidableEq, Repr

/-- Result of running the retry wrapper: final outcome, number of
invocations of the unit of work, and the backoff sleeps performed. -/
structure RetryOut where
  result : RetryResult
  invocations : Nat
  sleeps : List Nat
deriving DecidableEq, Repr

/-- Keyword list of the returned-dict branch (app.py line 68). Note the
bare string `"5"`, and that `"service unavailable"` / `"bad gateway"` are
absent from this list. -/
def dictRetryKeywords : List String :=
  ["timeout", "network", "connection", "temporary", "server error", "5"]

/-- Keyword list of the exception branch (app.py lines 101-104). -/
def excRetryKeywords : List String :=
  ["timeout", "network", "connection", "temporary",
   "server error", "service unavailable", "bad gateway"]

/-- Retry decision for a returned failure dict (app.py lines 64-77):
transient keywords always retry, quota retries only on `retry_on_quota`,
json / parse retries, everything else does not retry. `errorMsg` is the
already lowercased message. -/
def dictShouldRetry (errorMsg errorType : String) (retryOnQuota : Bool) : Bool :=
  if dictRetryKeywords.any (fun kw => strContainsSub errorMsg kw) then true
  else if strContainsSub errorMsg "quota" || errorType == "quota_exhausted" then retryOnQuota
  else if strContainsSub errorMsg "json" || strContainsSub errorMsg "parse" then true
  else false

/-- Retry decision for a raised exception (app.py lines 101-104): only the
transient keyword list is consulted. -/
def excShouldRetry (errorStr : String) : Bool :=
  excRetryKeywords.any (fun kw => strContainsSub errorStr kw)

/-- Backoff wait before the next attempt (app.py lines 84-86, 109-111):
`delay * backoff ** attempt`, plus a jitter amount (the random
`uniform(0, wait * 0.1)` draw is supplied by the oracle `jitterF`). -/
def waitTime (cfg : RetryConfig) (jitterF : Nat → Nat) (attempt : Nat) : Nat :=
  let w := cfg.delay * cfg.backoff ^ attempt
  if cfg.jitter then w + jitterF attempt else w

/-- Loop body of the wrapper (app.py lines 50-121). `fuel` is the number of
remaining iterations of `for attempt in range(max_retries + 1)`; `attempt`
is the Python loop variable; `lastExc`, `invoked` and `sleeps` thread the
`last_exception` variable, the invocation count and the sleeps performed.
The `fuel = 0` case is the code after the loop (lines 117-121). -/
def apiRetryGo (cfg : RetryConfig) (jitterF : Nat → Nat) (f : Nat → CallOutcome) :
    Nat → Nat → Option String → Nat → List Nat → RetryOut
  | 0, _, lastExc, invoked, sleeps =>
    match lastExc with
    | some e => ⟨.raise e, invoked, sleeps⟩
    | none => ⟨.ret (.dict false "所有重试都失败了" ""), invoked, sleeps⟩
  | fuel + 1, attempt, lastExc, invoked, sleeps =>
    match f attempt with
    | .returns (.dict true e t) => ⟨.ret (.dict true e t), invoked + 1, sleeps⟩
    | .returns (.dict false e t) =>
      if !(dictShouldRetry (lowerStr e) t cfg.retryOnQuota) || cfg.maxRetries ≤ attempt then
        ⟨.ret (.dict false e t), invoked + 1, sleeps⟩
      else
        apiRetryGo cfg jitterF f fuel (attempt + 1) lastExc (invoked + 1)
          (sleeps ++ [waitTime cfg jitterF attempt])
    | .returns .other => ⟨.ret .other, invoked + 1, sleeps⟩
    | .raises m =>
      if !(excShouldRetry (lowerStr m)) || cfg.maxRetries ≤ attempt then
        ⟨.raise m, invoked + 1, sleeps⟩
      else
        apiRetryGo cfg jitterF f fuel (attempt + 1) (some m) (invoked + 1)
          (sleeps ++ [waitTime cfg jitterF attempt])

/-- The wrapped call: run the loop from attempt 0 with
`max_retries + 1` iterations available. -/
def apiRetry (cfg : RetryConfig) (jitterF : Nat → Nat) (f : Nat → CallOutcome) : RetryOut :=
  apiRetryGo cfg jitterF f (cfg.maxRetries + 1) 0 none 0 []

/-- The loop performs at most `fuel` further invocations. -/
theorem apiRetryGo_invocations_le (cfg : RetryConfig) (jitterF : Nat → Nat)
    (f : Nat → CallOutcome) :
    ∀ fuel attempt lastExc invoked sleeps,
      (apiRetryGo cfg jitterF f fuel attempt lastExc invoked sleeps).invocations
        ≤ invoked + fuel := by
  intro fuel
  induction fuel with
  | zero =>
    intro attempt lastExc invoked sleeps
    cases lastExc <;> simp [apiRetryGo]
  | succ n ih =>
    intro attempt lastExc invoked sleeps
    unfold apiRetryGo
    cases h : f attempt with
    | returns v =>
      cases v with
      | dict success e t =>
        cases success
        · dsimp only
          split
          · simp
          · exact le_trans (ih _ _ _ _) (by omega)
        · simp
      | other =>
        simp
    | raises m =>
      dsimp only
      split
      · simp
      · exact le_trans (ih _ _ _ _) (by omega)

/-- The loop never forgets invocations already performed. -/
theorem apiRetryGo_invocations_ge (cfg : RetryConfig) (jitterF : Nat → Nat)
    (f : Nat → CallOutcome) :
    ∀ fuel attempt lastExc invoked sleeps,
      invoked ≤ (apiRetryGo cfg jitterF f fuel attempt lastExc invoked sleeps).invocations := by
  intro fuel
  induction fuel with
  | zero =>
    intro attempt lastExc invoked sleeps
    cases lastExc <;> simp [apiRetryGo]
  | succ n ih =>
    intro attempt lastExc invoked sleeps
    unfold apiRetryGo
    cases h : f attempt with
    | returns v =>
      cases v with
      | dict success e t =>
        cases success
        · dsimp only
          split
          · simp
          · exact le_trans (Nat.le_succ _) (ih _ _ _ _)
        · simp
      | other =>
        simp
    | raises m =>
      dsimp only
      split
      · simp
      · exact le_trans (Nat.le_succ _) (ih _ _ _ _)

/-- As long as at least one loop iteration remains, the loop invokes the
unit of work at least once more. -/
theorem apiRetryGo_invocations_pos (cfg : RetryConfig) (jitterF : Nat → Nat)
    (f : Nat → CallOutcome) (fuel attempt : Nat) (lastExc : Option String)
    (invoked : Nat) (sleeps : List Nat) (hfuel : fuel ≠ 0) :
    invoked + 1 ≤ (apiRetryGo cfg jitterF f fuel attempt lastExc invoked sleeps).invocations := by
  cases fuel with
  | zero => exact absurd rfl hfuel
  | succ n =>
    unfold apiRetryGo
    cases h : f attempt with
    | returns v =>
      cases v with
      | dict success e t =>
        cases success
        · dsimp only
          split
          · simp
          · exact apiRetryGo_invocations_ge cfg jitterF f n _ _ _ _
        · simp
      | other =>
        simp
    | raises m =>
      dsimp only
      split
      · simp
      · exact apiRetryGo_invocations_ge cfg jitterF f n _ _ _ _

/-- C1: for every retry configuration (maxRetries, baseDelay,
backoffFactor, jitterEnabled, retryOnQuota) and every unit of work, a
single call to the retry-wrapped function invokes the underlying unit of
work at most maxRetries + 1 times, and exactly once (returning the success
value) if the first invocation succeeds. -/
theorem apiRetry_invocation_bound (cfg : RetryConfig) (jitterF : Nat → Nat)
    (f : Nat → CallOutcome) :
    (apiRetry cfg jitterF f).invocations ≤ cfg.maxRetries + 1
    ∧ (∀ e t, f 0 = .returns (.dict true e t) →
        apiRetry cfg jitterF f = ⟨.ret (.dict true e t), 1, []⟩) := by
  constructor
  · simpa using apiRetryGo_invocations_le cfg jitterF f (cfg.maxRetries + 1) 0 none 0 []
  · intro e t h
    unfold apiRetry
    unfold apiRetryGo
    rw [h]

/-- Witness for `apiRetry_invocation_bound` at a concrete configuration
and a unit of work succeeding on the first attempt. -/
theorem apiRetry_invocation_bound_witness :
    (apiRetry ⟨3, 1, 2, true, true⟩ (fun _ => 0)
        (fun _ => .returns (.dict true "" ""))).invocations ≤ 3 + 1
    ∧ apiRetry ⟨3, 1, 2, true, true⟩ (fun _ => 0)
        (fun _ => .returns (.dict true "" "")) = ⟨.ret (.dict true "" ""), 1, []⟩ :=
  ⟨(apiRetry_invocation_bound ⟨3, 1, 2, true, true⟩ (fun _ => 0)
      (fun _ => .returns (.dict true "" ""))).1,
   (apiRetry_invocation_bound ⟨3, 1, 2, true, true⟩ (fun _ => 0)
      (fun _ => .returns (.dict true "" ""))).2 "" "" rfl⟩

/-- Configuration with `max_retries = 2` and `retry_on_quota = True`, as
used by the image and text call sites. -/
def quotaExcCfg : RetryConfig := ⟨2, 1, 2, false, true⟩

/-- Unit of work that always raises a quota-classified exception. -/
def quotaExcUnit : Nat → CallOutcome :=
  fun _ => .raises "quota exceeded for this project"

/-- C6 counterexample: with `retry_on_quota = True`, a unit of work that
raises a quota-classified exception is invoked exactly once — the
exception branch of `api_retry` (app.py lines 96-107) consults only the
transient keyword list, so the quota exception propagates immediately and
no retry happens, contradicting the claim that such an exception is
retried when retryOnQuota is true. -/
theorem apiRetry_quota_exception_not_retried :
    (apiRetry quotaExcCfg (fun _ => 0) quotaExcUnit).invocations = 1
    ∧ (apiRetry quotaExcCfg (fun _ => 0) quotaExcUnit).result
        = .raise "quota exceeded for this project"
    ∧ quotaExcCfg.retryOnQuota = true
    ∧ ¬ 2 ≤ (apiRetry quotaExcCfg (fun _ => 0) quotaExcUnit).invocations := by
  decide

/-- C6 amended: when the unit of work raises, the only classification that
triggers a retry is the transient keyword list of the exception branch; an
exception whose lowercased message contains none of those keywords —
including quota-classified and json/parse-classified exceptions — is
propagated immediately after one invocation, regardless of `retryOnQuota`,
while a transient-classified exception is retried when retries remain. -/
theorem apiRetry_exception_classification (cfg : RetryConfig) (jitterF : Nat → Nat)
    (f : Nat → CallOutcome) (m : String) (hf : f 0 = .raises m) :
    (excShouldRetry (lowerStr m) = false →
      apiRetry cfg jitterF f = ⟨.raise m, 1, []⟩)
    ∧ (excShouldRetry (lowerStr m) = true → 1 ≤ cfg.maxRetries →
      2 ≤ (apiRetry cfg jitterF f).invocations) := by
  constructor
  · intro hkw
    unfold apiRetry
    unfold apiRetryGo
    rw [hf]
    simp [hkw]
  · intro hkw hmax
    unfold apiRetry
    unfold apiRetryGo
    rw [hf]
    have hne : ¬ (cfg.maxRetries ≤ 0) := by omega
    simp only [hkw, Bool.not_true, Bool.false_or, decide_eq_true_eq]
    rw [if_neg hne]
    exact apiRetryGo_invocations_pos cfg jitterF f cfg.maxRetries 1 (some m) 1 _ (by omega)

/-- Witness for `apiRetry_exception_classification`: a quota exception is
propagated unretried, and a connection exception is retried. -/
theorem apiRetry_exception_classification_witness :
    apiRetry quotaExcCfg (fun _ => 0) quotaExcUnit
      = ⟨.raise "quota exceeded for this project", 1, []⟩
    ∧ 2 ≤ (apiRetry ⟨2, 1, 2, false, true⟩ (fun _ => 0)
        (fun _ => .raises "connection reset")).invocations :=
  ⟨(apiRetry_exception_classification quotaExcCfg (fun _ => 0) quotaExcUnit
      "quota exceeded for this project" rfl).1 (by decide),
   (apiRetry_exception_classification ⟨2, 1, 2, false, true⟩ (fun _ => 0)
      (fun _ => .raises "connection reset") "connection reset" rfl).2
      (by decide) (by decide)⟩

/-- Configuration with `max_retries = 1` and `retry_on_quota = False`. -/
def digit5Cfg : RetryConfig := ⟨1, 1, 2, false, false⟩

/-- Unit of work that always returns a failure dict whose message contains
the character 5 but none of the keywords listed by the specification, no
quota signal, and no json/parse keyword. -/
def digit5Unit : Nat → CallOutcome :=
  fun _ => .returns (.dict false "page 5 missing" "")

/-- C7 counterexample: the failure message "page 5 missing" contains none
of the spec keyword list, no 5xx status, no quota signal and no json/parse
keyword, so the claim classifies it Fatal and demands a return after one
invocation; but the returned-dict branch of `api_retry` (app.py line 68)
matches the bare substring "5", so the code retries: two invocations and
one backoff sleep are performed. -/
theorem apiRetry_digit5_retried :
    (apiRetry digit5Cfg (fun _ => 0) digit5Unit).invocations = 2
    ∧ ¬ (apiRetry digit5Cfg (fun _ => 0) digit5Unit).invocations = 1
    ∧ (apiRetry digit5Cfg (fun _ => 0) digit5Unit).sleeps = [1] := by
  decide

/-- C7 amended: Fatal means matching none of the keyword lists actually in
the code. For a returned failure whose lowercased message contains none of
[timeout, network, connection, temporary, server error] and not the bare
character 5, no quota signal, and no json/parse keyword, the failure is
returned after one invocation with no sleep, regardless of maxRetries; a
raised exception whose message misses all transient keywords of the
exception branch is likewise propagated after one invocation. -/
theorem apiRetry_fatal_no_retry (cfg : RetryConfig) (jitterF : Nat → Nat)
    (f : Nat → CallOutcome) :
    (∀ e t, f 0 = .returns (.dict false e t) →
      dictRetryKeywords.any (fun kw => strContainsSub (lowerStr e) kw) = false →
      strContainsSub (lowerStr e) "quota" = false →
      t ≠ "quota_exhausted" →
      strContainsSub (lowerStr e) "json" = false →
      strContainsSub (lowerStr e) "parse" = false →
      apiRetry cfg jitterF f = ⟨.ret (.dict false e t), 1, []⟩)
    ∧ (∀ m, f 0 = .raises m →
      excShouldRetry (lowerStr m) = false →
      apiRetry cfg jitterF f = ⟨.raise m, 1, []⟩) := by
  constructor
  · intro e t hf h1 h2 ht h4 h5
    have htb : (t == "quota_exhausted") = false := by
      simpa using ht
    have hdec : dictShouldRetry (lowerStr e) t cfg.retryOnQuota = false := by
      unfold dictShouldRetry
      rw [h1, h2, htb, h4, h5]
      simp
    unfold apiRetry
    unfold apiRetryGo
    rw [hf]
    simp [hdec]
  · intro m hf hkw
    unfold apiRetry
    unfold apiRetryGo
    rw [hf]
    simp [hkw]

/-- Witness for `apiRetry_fatal_no_retry`: the failure message "invalid
api key" and the exception message "access denied" are both returned or
propagated after exactly one invocation. -/
theorem apiRetry_fatal_no_retry_witness :
    apiRetry ⟨3, 1, 2, true, true⟩ (fun _ => 0)
        (fun _ => .returns (.dict false "invalid api key" ""))
      = ⟨.ret (.dict false "invalid api key" ""), 1, []⟩
    ∧ apiRetry ⟨3, 1, 2, true, true⟩ (fun _ => 0)
        (fun _ => .raises "access denied")
      = ⟨.raise "access denied", 1, []⟩ :=
  ⟨(apiRetry_fatal_no_retry ⟨3, 1, 2, true, true⟩ (fun _ => 0)
      (fun _ => .returns (.dict false "invalid api key" ""))).1
      "invalid api key" "" rfl (by decide) (by decide) (by decide)
      (by decide) (by decide),
   (apiRetry_fatal_no_retry ⟨3, 1, 2, true, true⟩ (fun _ => 0)
      (fun _ => .raises "access denied")).2 "access denied" rfl (by decide)⟩

/-! ## Parallel image batch (`generate_images_parallel`, app.py lines 932-984)

The thread-pool execution is modelled as a trace of timed events. A
`start k` event is the moment the closure `generate_single_image` begins
running for task `k` and reads the shared `quota_exhausted` flag; a
`finish k` event is the moment the closure returns (the flag update on a
quota failure, app.py lines 953-954, happens there); a `collect k` event
is one iteration of the `as_completed` loop receiving the future of `k`
(app.py lines 968-982). The machine both checks that the trace is
realizable by the code (futures are collected only after finishing, at
most once, and never after the loop has been left by `break`) and computes
the resulting state. -/

/-- Result dict produced by `generate_image_gemini` and consumed by the
batch and assembly code. Fields absent from the Python dict are `none`
(the code reads them with `dict.get` defaults). -/
structure ImgResult where
  success : Bool
  imageData : Option String
  imageUrl : Option String
  model : Option String
  seed : Option String
  error : Option String
  errorType : Option String
deriving DecidableEq, Repr

/-- Outcome of one worker call: the closure returns a result dict, or the
wrapped call raises and the exception escapes the closure. -/
inductive WOut
  | ok (r : ImgResult)
  | exc (e : String)
deriving DecidableEq, Repr

/-- The synthesized skip result (app.py lines 943-947). -/
def skippedQuotaResult : ImgResult :=
  ⟨false, none, none, none, none, some "跳过生成：配额已用完", some "quota_exhausted"⟩

/-- Result recorded when collecting a future whose closure raised
(app.py line 982). -/
def excCollectResult (e : String) : ImgResult :=
  ⟨false, none, none, none, none, some e, none⟩

/-- Quota detection on a completed result (app.py line 953). -/
def isQuotaTrip (r : ImgResult) : Bool :=
  !r.success && r.errorType == some "quota_exhausted"

/-- Semantics of `future.result(timeout = 180)` issued at time `now` on a
future that completes at time `tf`: if the future completes within the
wait window the stored outcome is returned, otherwise a TimeoutError is
raised, whose `str` is the empty string. Because `as_completed` yields
only futures that already completed, the machine always calls this with
`tf ≤ now` and the timeout branch is unreachable. -/
def resultWithTimeout (tf now : Nat) (r : ImgResult) : ImgResult :=
  if tf ≤ now + 180 then r else excCollectResult ""

/-- Trace events of one batch execution. -/
inductive BEv
  | start (k : String)
  | finish (k : String)
  | collect (k : String)
deriving DecidableEq, Repr

/-- State of one batch execution: the shared closure flag, the keys
started, the per-task outcome fixed at start time, the keys whose worker
was actually invoked, finish times, the `results` dict in collection
order, whether the collection loop has executed `break`, and the last
event time. -/
structure BState where
  flag : Bool
  started : List String
  computed : List (String × WOut)
  invoked : List String
  finishedAt : List (String × Nat)
  results : List (String × ImgResult)
  broke : Bool
  lastT : Nat
deriving DecidableEq, Repr

/-- Initial state of a batch (app.py lines 934-935). -/
def initBState : BState := ⟨false, [], [], [], [], [], false, 0⟩

/-- One event of the batch machine. `none` means the event is not
realizable by the code at this state. At `start`, the closure reads the
flag: if set it fixes the synthesized skip result without invoking the
worker, otherwise it invokes the worker (app.py lines 941-950). At
`finish`, a quota-classified returned failure sets the shared flag
(app.py lines 953-954). At `collect`, the loop records the result and, on
a returned (not raised) outcome, breaks if the flag is set (app.py lines
968-982); no collection happens after a break. -/
def wfStep (keys : List String) (worker : String → WOut) (st : BState) :
    Nat × BEv → Option BState
  | (t, .start k) =>
    if st.lastT ≤ t ∧ k ∈ keys ∧ k ∉ st.started then
      if st.flag then
        some { st with started := st.started ++ [k],
                       computed := st.computed ++ [(k, .ok skippedQuotaResult)],
                       lastT := t }
      else
        some { st with started := st.started ++ [k],
                       computed := st.computed ++ [(k, worker k)],
                       invoked := st.invoked ++ [k],
                       lastT := t }
    else none
  | (t, .finish k) =>
    if st.lastT ≤ t ∧ (st.finishedAt.lookup k).isNone then
      match st.computed.lookup k with
      | some (.ok r) =>
        some { st with finishedAt := st.finishedAt ++ [(k, t)],
                       flag := st.flag || isQuotaTrip r,
                       lastT := t }
      | some (.exc _) =>
        some { st with finishedAt := st.finishedAt ++ [(k, t)], lastT := t }
      | none => none
    else none
  | (t, .collect k) =>
    if st.broke then none
    else if st.lastT ≤ t ∧ (st.results.lookup k).isNone then
      match st.finishedAt.lookup k, st.computed.lookup k with
      | some tf, some (.ok r) =>
        some { st with results := st.results ++ [(k, resultWithTimeout tf t r)],
                       broke := st.flag,
                       lastT := t }
      | some _, some (.exc e) =>
        some { st with results := st.results ++ [(k, excCollectResult e)],
                       lastT := t }
      | _, _ => none
    else none

/-- Run of a whole batch trace from the initial state. -/
def runBatch (keys : List String) (worker : String → WOut)
    (trace : List (Nat × BEv)) : Option BState :=
  trace.foldlM (wfStep keys worker) initBState

/-- A trace is terminal when the collection loop ran to its natural end:
either it broke out, or every submitted task has been collected (the
`with` block and the `as_completed` loop only end after every future has
been yielded and recorded). -/
def terminalB (keys : List String) (st : BState) : Bool :=
  st.broke || keys.all (fun k => (st.results.lookup k).isSome)

/-! ## Generic machinery for trace invariants -/

/-- Invariant preservation through `List.foldlM` in the `Option` monad. -/
theorem foldlM_option_invariant {σ ε : Type} (P : σ → Prop)
    (step : σ → ε → Option σ)
    (hstep : ∀ s e s', P s → step s e = some s' → P s') :
    ∀ (l : List ε) (s s' : σ), P s → List.foldlM step s l = some s' → P s' := by
  intro l
  induction l with
  | nil =>
    intro s s' hs h
    simp only [List.foldlM_nil] at h
    cases h
    exact hs
  | cons e l ih =>
    intro s s' hs h
    rw [List.foldlM_cons] at h
    cases hse : step s e with
    | none => rw [hse] at h; simp at h
    | some s1 =>
      rw [hse] at h
      simp only [Option.bind_eq_bind, Option.some_bind] at h
      exact ih s1 s' (hstep s e s1 hs hse) h

/-- A key absent from an association list (by `lookup`) is not among its
keys. -/
theorem lookup_none_not_mem {α β} [BEq α] [LawfulBEq α]
    {l : List (α × β)} {k : α} (h : l.lookup k = none) :
    k ∉ l.map Prod.fst := by
  rw [List.lookup_eq_none_iff] at h
  intro hk
  obtain ⟨p, hp, hfst⟩ := List.mem_map.mp hk
  have := h p hp
  simp [← hfst] at this

/-- Lookup hits in the left part of an append are stable. -/
theorem lookup_append_some {α β} [BEq α] [LawfulBEq α]
    {l1 l2 : List (α × β)} {k : α} {v : β}
    (h : l1.lookup k = some v) : (l1 ++ l2).lookup k = some v := by
  rw [List.lookup_append, h]
  rfl

/-- Lookup successes survive appending on the right. -/
theorem isSome_lookup_append_left {α β} [BEq α] [LawfulBEq α]
    {l1 l2 : List (α × β)} {k : α}
    (h : (l1.lookup k).isSome) : ((l1 ++ l2).lookup k).isSome := by
  rw [List.lookup_append]
  cases hl : l1.lookup k with
  | none => rw [hl] at h; simp at h
  | some v => simp [hl]

/-- Lookup successes in an append come from one of the parts. -/
theorem isSome_lookup_append {α β} [BEq α] [LawfulBEq α]
    {l1 l2 : List (α × β)} {k : α}
    (h : ((l1 ++ l2).lookup k).isSome) :
    (l1.lookup k).isSome ∨ (l2.lookup k).isSome := by
  rw [List.lookup_append] at h
  cases hl : l1.lookup k with
  | none => rw [hl] at h; simp_all
  | some v => simp [hl]

/-! ## Batch machine invariants -/

/-- Structural invariants of every reachable batch state. -/
structure BatchInv (keys : List String) (st : BState) : Prop where
  startedSub : ∀ k, k ∈ st.started → k ∈ keys
  finStarted : ∀ k, (st.finishedAt.lookup k).isSome → k ∈ st.started
  compStarted : ∀ k, (st.computed.lookup k).isSome → k ∈ st.started
  startedComp : ∀ k, k ∈ st.started → (st.computed.lookup k).isSome
  invokedStarted : ∀ k, k ∈ st.invoked → k ∈ st.started
  resNodup : (st.results.map Prod.fst).Nodup
  resFin : ∀ k, (st.results.lookup k).isSome → (st.finishedAt.lookup k).isSome
  brokeFlag : st.broke = true → st.flag = true
  flagQuota : st.flag = true → ∃ j r, st.computed.lookup j = some (.ok r)
    ∧ isQuotaTrip r = true ∧ (st.finishedAt.lookup j).isSome

/-- The invariants hold initially. -/
theorem batchInv_init (keys : List String) : BatchInv keys initBState := by
  constructor <;> simp [initBState]

/-- A start event preserves the invariants, whichever outcome is fixed for
the newly started task and whether or not the worker was invoked. -/
theorem batchInv_start (keys : List String) (s : BState) (k : String)
    (w : WOut) (t : Nat) (inv2 : List String)
    (hinv : BatchInv keys s) (hk : k ∈ keys) (hns : k ∉ s.started)
    (hinv2 : inv2 = s.invoked ∨ inv2 = s.invoked ++ [k]) :
    BatchInv keys { s with
      started := s.started ++ [k]
      computed := s.computed ++ [(k, w)]
      invoked := inv2
      lastT := t } := by
  have hcomp : ∀ j, ((s.computed ++ [(k, w)]).lookup j).isSome →
      j ∈ s.started ++ [k] := by
    intro j hj
    rcases isSome_lookup_append hj with hold | hnew
    · exact List.mem_append_left _ (hinv.compStarted j hold)
    · simp only [List.lookup_cons, List.lookup_nil] at hnew
      split at hnew
      · rename_i hbeq
        have : j = k := by simpa using hbeq
        subst this
        exact List.mem_append_right _ (by simp)
      · simp at hnew
  have hcomp2 : ∀ j, j ∈ s.started ++ [k] →
      ((s.computed ++ [(k, w)]).lookup j).isSome := by
    intro j hj
    rcases List.mem_append.mp hj with hold | hnew
    · exact isSome_lookup_append_left (hinv.startedComp j hold)
    · have : j = k := by simpa using hnew
      subst this
      rw [List.lookup_append]
      cases hl : s.computed.lookup j <;> simp [List.lookup_cons, hl]
  exact {
    startedSub := by
      intro j hj
      rcases List.mem_append.mp hj with hold | hnew
      · exact hinv.startedSub j hold
      · have : j = k := by simpa using hnew
        subst this
        exact hk
    finStarted := fun j hj => List.mem_append_left _ (hinv.finStarted j hj)
    compStarted := hcomp
    startedComp := hcomp2
    invokedStarted := by
      intro j hj
      rcases hinv2 with rfl | rfl
      · exact List.mem_append_left _ (hinv.invokedStarted j hj)
      · rcases List.mem_append.mp hj with hold | hnew
        · exact List.mem_append_left _ (hinv.invokedStarted j hold)
        · exact List.mem_append_right _ hnew
    resNodup := hinv.resNodup
    resFin := hinv.resFin
    brokeFlag := hinv.brokeFlag
    flagQuota := by
      intro hf
      obtain ⟨j, r, hj, hq, hfin⟩ := hinv.flagQuota hf
      exact ⟨j, r, lookup_append_some hj, hq, hfin⟩ }

/-- A finish event of a task whose closure returned preserves the
invariants. -/
theorem batchInv_finish_ok (keys : List String) (s : BState) (k : String)
    (r : ImgResult) (t : Nat)
    (hinv : BatchInv keys s) (hfin : (s.finishedAt.lookup k).isNone)
    (hcl : s.computed.lookup k = some (.ok r)) :
    BatchInv keys { s with
      finishedAt := s.finishedAt ++ [(k, t)]
      flag := s.flag || isQuotaTrip r
      lastT := t } := by
  exact {
    startedSub := hinv.startedSub
    finStarted := by
      intro j hj
      rcases isSome_lookup_append hj with hold | hnew
      · exact hinv.finStarted j hold
      · simp only [List.lookup_cons, List.lookup_nil] at hnew
        split at hnew
        · rename_i hbeq
          have : j = k := by simpa using hbeq
          subst this
          exact hinv.compStarted j (by simp [hcl])
        · simp at hnew
    compStarted := hinv.compStarted
    startedComp := hinv.startedComp
    invokedStarted := hinv.invokedStarted
    resNodup := hinv.resNodup
    resFin := fun j hj => isSome_lookup_append_left (hinv.resFin j hj)
    brokeFlag := by
      intro hb
      have := hinv.brokeFlag hb
      simp [this]
    flagQuota := by
      intro hf
      rcases Bool.or_eq_true_iff.mp hf with hold | hq
      · obtain ⟨j, r', hj, hq', hfj⟩ := hinv.flagQuota hold
        exact ⟨j, r', hj, hq', isSome_lookup_append_left hfj⟩
      · refine ⟨k, r, hcl, hq, ?_⟩
        rw [Option.isNone_iff_eq_none] at hfin
        rw [List.lookup_append, hfin]
        simp [List.lookup_cons] }

/-- A finish event of a task whose closure raised preserves the
invariants. -/
theorem batchInv_finish_exc (keys : List String) (s : BState) (k : String)
    (t : Nat)
    (hinv : BatchInv keys s) (hstart : k ∈ s.started) :
    BatchInv keys { s with
      finishedAt := s.finishedAt ++ [(k, t)]
      lastT := t } := by
  exact {
    startedSub := hinv.startedSub
    finStarted := by
      intro j hj
      rcases isSome_lookup_append hj with hold | hnew
      · exact hinv.finStarted j hold
      · simp only [List.lookup_cons, List.lookup_nil] at hnew
        split at hnew
        · rename_i hbeq
          have : j = k := by simpa using hbeq
          subst this
          exact hstart
        · simp at hnew
    compStarted := hinv.compStarted
    startedComp := hinv.startedComp
    invokedStarted := hinv.invokedStarted
    resNodup := hinv.resNodup
    resFin := fun j hj => isSome_lookup_append_left (hinv.resFin j hj)
    brokeFlag := hinv.brokeFlag
    flagQuota := by
      intro hf
      obtain ⟨j, r', hj, hq', hfj⟩ := hinv.flagQuota hf
      exact ⟨j, r', hj, hq', isSome_lookup_append_left hfj⟩ }

/-- A collect event preserves the invariants, whichever result is recorded
and whether or not the loop then breaks (the new `broke` value is either
the old one or the current flag). -/
theorem batchInv_collect (keys : List String) (s : BState) (k : String)
    (r : ImgResult) (t : Nat) (broke2 : Bool)
    (hinv : BatchInv keys s) (hres : s.results.lookup k = none)
    (hfk : (s.finishedAt.lookup k).isSome)
    (hbr : broke2 = s.broke ∨ broke2 = s.flag) :
    BatchInv keys { s with
      results := s.results ++ [(k, r)]
      broke := broke2
      lastT := t } := by
  have hnotmem : k ∉ s.results.map Prod.fst := lookup_none_not_mem hres
  exact {
    startedSub := hinv.startedSub
    finStarted := hinv.finStarted
    compStarted := hinv.compStarted
    startedComp := hinv.startedComp
    invokedStarted := hinv.invokedStarted
    resNodup := by
      rw [List.map_append, List.nodup_append]
      refine ⟨hinv.resNodup, by simp, ?_⟩
      intro a ha hb
      simp only [List.map_cons, List.map_nil, List.mem_singleton] at hb
      subst hb
      exact hnotmem ha
    resFin := by
      intro j hj
      rcases isSome_lookup_append hj with hold | hnew
      · exact hinv.resFin j hold
      · simp only [List.lookup_cons, List.lookup_nil] at hnew
        split at hnew
        · rename_i hbeq
          have : j = k := by simpa using hbeq
          subst this
          exact hfk
        · simp at hnew
    brokeFlag := by
      intro hb
      rcases hbr with rfl | rfl
      · exact hinv.brokeFlag hb
      · exact hb
    flagQuota := hinv.flagQuota }

/-- The invariants are preserved by every realizable event. -/
theorem wfStep_inv (keys : List String) (worker : String → WOut)
    (s s' : BState) (e : Nat × BEv)
    (hinv : BatchInv keys s) (h : wfStep keys worker s e = some s') :
    BatchInv keys s' := by
  obtain ⟨t, ev⟩ := e
  cases ev with
  | start k =>
    simp only [wfStep] at h
    split at h
    case isTrue hc =>
      obtain ⟨hlt, hk, hns⟩ := hc
      split at h
      · cases h
        exact batchInv_start keys s k (.ok skippedQuotaResult) t s.invoked
          hinv hk hns (Or.inl rfl)
      · cases h
        exact batchInv_start keys s k (worker k) t (s.invoked ++ [k])
          hinv hk hns (Or.inr rfl)
    case isFalse => simp at h
  | finish k =>
    simp only [wfStep] at h
    split at h
    case isTrue hc =>
      obtain ⟨hlt, hfin⟩ := hc
      cases hcl : s.computed.lookup k with
      | none => rw [hcl] at h; simp at h
      | some w =>
        rw [hcl] at h
        cases w with
        | ok r =>
          simp only [Option.some.injEq] at h
          subst h
          exact batchInv_finish_ok keys s k r t hinv hfin hcl
        | exc e =>
          simp only [Option.some.injEq] at h
          subst h
          exact batchInv_finish_exc keys s k t hinv
            (hinv.compStarted k (by simp [hcl]))
    case isFalse => simp at h
  | collect k =>
    simp only [wfStep] at h
    split at h
    case isTrue => simp at h
    case isFalse hbroke =>
      split at h
      case isFalse => simp at h
      case isTrue hc =>
        obtain ⟨hlt, hres⟩ := hc
        rw [Option.isNone_iff_eq_none] at hres
        cases hfl : s.finishedAt.lookup k with
        | none => rw [hfl] at h; simp at h
        | some tf =>
          rw [hfl] at h
          cases hcl : s.computed.lookup k with
          | none => rw [hcl] at h; simp at h
          | some w =>
            rw [hcl] at h
            cases w with
            | ok r =>
              simp only [Option.some.injEq] at h
              subst h
              exact batchInv_collect keys s k (resultWithTimeout tf t r) t
                s.flag hinv hres (by simp [hfl]) (Or.inr rfl)
            | exc e =>
              simp only [Option.some.injEq] at h
              subst h
              exact batchInv_collect keys s k (excCollectResult e) t
                s.broke hinv hres (by simp [hfl]) (Or.inl rfl)

/-- Every reachable batch state satisfies the invariants. -/
theorem runBatch_inv (keys : List String) (worker : String → WOut)
    (trace : List (Nat × BEv)) (st : BState)
    (h : runBatch keys worker trace = some st) : BatchInv keys st :=
  foldlM_option_invariant (BatchInv keys) (wfStep keys worker)
    (fun s e s' => wfStep_inv keys worker s s' e) trace initBState st
    (batchInv_init keys) h

/-- Every realizable event preserves computed outcomes of already started
tasks, keeps started tasks started, and never invokes the worker for a
task that is already started but was never invoked. -/
theorem wfStep_pres (keys : List String) (worker : String → WOut)
    (s s' : BState) (e : Nat × BEv)
    (h : wfStep keys worker s e = some s') :
    (∀ j w, s.computed.lookup j = some w → s'.computed.lookup j = some w)
    ∧ (∀ j, j ∈ s.started → j ∈ s'.started)
    ∧ (∀ j, j ∈ s.started → j ∉ s.invoked → j ∉ s'.invoked) := by
  obtain ⟨t, ev⟩ := e
  cases ev with
  | start k =>
    simp only [wfStep] at h
    split at h
    case isTrue hc =>
      obtain ⟨hlt, hk, hns⟩ := hc
      split at h <;> cases h
      · exact ⟨fun j w hj => lookup_append_some hj,
          fun j hj => List.mem_append_left _ hj,
          fun j hj hni => hni⟩
      · refine ⟨fun j w hj => lookup_append_some hj,
          fun j hj => List.mem_append_left _ hj, ?_⟩
        intro j hj hni hmem
        rcases List.mem_append.mp hmem with hold | hnew
        · exact hni hold
        · have : j = k := by simpa using hnew
          subst this
          exact hns hj
    case isFalse => simp at h
  | finish k =>
    simp only [wfStep] at h
    split at h
    case isTrue hc =>
      cases hcl : s.computed.lookup k with
      | none => rw [hcl] at h; simp at h
      | some w =>
        rw [hcl] at h
        cases w <;> simp only [Option.some.injEq] at h <;> subst h <;>
          exact ⟨fun j w hj => hj, fun j hj => hj, fun j hj hni => hni⟩
    case isFalse => simp at h
  | collect k =>
    simp only [wfStep] at h
    split at h
    case isTrue => simp at h
    case isFalse hbroke =>
      split at h
      case isFalse => simp at h
      case isTrue hc =>
        cases hfl : s.finishedAt.lookup k with
        | none => rw [hfl] at h; simp at h
        | some tf =>
          rw [hfl] at h
          cases hcl : s.computed.lookup k with
          | none => rw [hcl] at h; simp at h
          | some w =>
            rw [hcl] at h
            cases w <;> simp only [Option.some.injEq] at h <;> subst h <;>
              exact ⟨fun j w hj => hj, fun j hj => hj, fun j hj hni => hni⟩

/-- C3 amended: once the shared quota flag is set — which happens exactly
when some completed task of the batch has reported a quota-exhausted
failure — every task of the batch that starts afterwards is fixed to the
synthesized quota-exhausted skip result without invoking the worker, and
the computed outcome of every already-started task is unaffected by the
trip; the skipped and still-running results are, however, only recorded
in the batch outcome if their futures are collected before the loop
breaks. -/
theorem batch_skip_after_trip (keys : List String) (worker : String → WOut)
    (t1 t2 : List (Nat × BEv)) (ts : Nat) (k : String) (s1 st : BState)
    (h1 : runBatch keys worker t1 = some s1)
    (hflag : s1.flag = true)
    (hrun : runBatch keys worker (t1 ++ (ts, BEv.start k) :: t2) = some st) :
    (∃ j r, s1.computed.lookup j = some (.ok r) ∧ isQuotaTrip r = true
      ∧ (s1.finishedAt.lookup j).isSome)
    ∧ st.computed.lookup k = some (.ok skippedQuotaResult)
    ∧ k ∉ st.invoked
    ∧ (∀ j w, s1.computed.lookup j = some w → st.computed.lookup j = some w) := by
  have hinv1 := runBatch_inv keys worker t1 s1 h1
  unfold runBatch at h1 hrun
  rw [List.foldlM_append, h1] at hrun
  simp only [Option.bind_eq_bind, Option.some_bind] at hrun
  rw [List.foldlM_cons] at hrun
  cases hs2 : wfStep keys worker s1 (ts, BEv.start k) with
  | none => rw [hs2] at hrun; simp at hrun
  | some s2 =>
    rw [hs2] at hrun
    simp only [Option.bind_eq_bind, Option.some_bind] at hrun
    have hstep := hs2
    simp only [wfStep] at hstep
    split at hstep
    case isFalse => simp at hstep
    case isTrue hc =>
      obtain ⟨hlt, hk, hns⟩ := hc
      rw [hflag] at hstep
      simp only [if_pos rfl, Option.some.injEq] at hstep
      have hknotinv : k ∉ s1.invoked := fun hmem => hns (hinv1.invokedStarted k hmem)
      have hknone : s1.computed.lookup k = none := by
        cases hq : s1.computed.lookup k with
        | none => rfl
        | some w =>
          exact absurd (hinv1.compStarted k (by simp [hq])) hns
      have hP2 : s2.computed.lookup k = some (.ok skippedQuotaResult)
          ∧ k ∉ s2.invoked ∧ k ∈ s2.started
          ∧ (∀ j w, s1.computed.lookup j = some w →
              s2.computed.lookup j = some w) := by
        subst hstep
        refine ⟨?_, hknotinv, List.mem_append_right _ (by simp), ?_⟩
        · rw [List.lookup_append, hknone]
          simp [List.lookup_cons]
        · intro j w hj
          exact lookup_append_some hj
      have hPst := foldlM_option_invariant
        (fun s => s.computed.lookup k = some (.ok skippedQuotaResult)
          ∧ k ∉ s.invoked ∧ k ∈ s.started
          ∧ (∀ j w, s1.computed.lookup j = some w →
              s.computed.lookup j = some w))
        (wfStep keys worker)
        (by
          intro s e s' hP h
          obtain ⟨hpres1, hpres2, hpres3⟩ := wfStep_pres keys worker s s' e h
          exact ⟨hpres1 k _ hP.1, hpres3 k hP.2.2.1 hP.2.1,
            hpres2 k hP.2.2.1, fun j w hj => hpres1 j w (hP.2.2.2 j w hj)⟩)
        t2 s2 st hP2 hrun
      exact ⟨hinv1.flagQuota hflag, hPst.1, hPst.2.1, hPst.2.2.2⟩

/-- C2 amended: in every terminal batch execution the outcome dictionary
never holds a duplicated key and only holds submitted keys; when the quota
flag was never tripped the loop cannot have broken, so every submitted key
is present exactly once. After a mid-batch quota trip keys can be missing
(the collection loop breaks). -/
theorem batch_outcome_keys (keys : List String) (worker : String → WOut)
    (trace : List (Nat × BEv)) (st : BState)
    (hrun : runBatch keys worker trace = some st)
    (hterm : terminalB keys st = true) :
    (st.results.map Prod.fst).Nodup
    ∧ (∀ k, (st.results.lookup k).isSome → k ∈ keys)
    ∧ (st.flag = false → ∀ k ∈ keys, (st.results.lookup k).isSome) := by
  have hinv := runBatch_inv keys worker trace st hrun
  refine ⟨hinv.resNodup, ?_, ?_⟩
  · intro k hk
    exact hinv.startedSub k (hinv.finStarted k (hinv.resFin k hk))
  · intro hflag k hk
    have hbroke : st.broke = false := by
      cases hb : st.broke
      · rfl
      · have := hinv.brokeFlag hb
        rw [hflag] at this
        exact absurd this (by simp)
    unfold terminalB at hterm
    rw [hbroke] at hterm
    simp only [Bool.false_or, List.all_eq_true] at hterm
    simpa using hterm k hk

/-- The quota failure dict produced by `generate_image_gemini` when the
Gemini call reports RESOURCE_EXHAUSTED (app.py lines 916-920). -/
def quotaFailResult : ImgResult :=
  ⟨false, none, none, none, none,
   some "API配额已用完，请明天再试或升级配额计划", some "quota_exhausted"⟩

/-- A success dict produced by `generate_image_gemini`
(app.py lines 889-895). -/
def okImgResult : ImgResult :=
  ⟨true, some "imagebytes", none, some "gemini-imagen", none, none, none⟩

/-- Keys of the two-task counterexample batch. -/
def cexKeys : List String := ["page_1", "page_2"]

/-- Worker of the counterexample batch: task 1 hits the quota, task 2
succeeds. -/
def cexWorker : String → WOut :=
  fun k => if k = "page_1" then .ok quotaFailResult else .ok okImgResult

/-- Counterexample trace: both tasks start (pool size at least 2), task 1
finishes with the quota failure and is collected — the loop sees the
tripped flag, cancels and breaks — and task 2, already running, finishes
afterwards but is never collected. -/
def cexTrace : List (Nat × BEv) :=
  [(0, .start "page_1"), (0, .start "page_2"), (5, .finish "page_1"),
   (6, .collect "page_1"), (7, .finish "page_2")]

/-- C2 counterexample: in this terminal execution of a two-task batch with
a mid-batch quota trip, the outcome dictionary returned by
`generate_images_parallel` contains no entry for the submitted key
page_2 — the claim that no key is missing regardless of a mid-batch quota
trip is false on the code (the `break` at app.py line 978 abandons
uncollected futures). -/
theorem batch_missing_key_after_quota_trip :
    ((runBatch cexKeys cexWorker cexTrace).map (fun st =>
      (terminalB cexKeys st, st.results.lookup "page_1",
       st.results.lookup "page_2")))
      = some (true, some quotaFailResult, none)
    ∧ "page_2" ∈ cexKeys := by
  decide

/-- C3 counterexample: in the same execution, task 2 was already running
when task 1 completed with the quota failure — its worker was invoked and
it ran to completion with its own success result — yet that result is
absent from the batch outcome, refuting the claim that results of
already-running tasks are still recorded. -/
theorem batch_running_result_dropped :
    ((runBatch cexKeys cexWorker cexTrace).map (fun st =>
      (st.computed.lookup "page_2", st.invoked,
       (st.finishedAt.lookup "page_2").isSome,
       st.results.lookup "page_2", terminalB cexKeys st)))
      = some (some (.ok okImgResult), ["page_1", "page_2"], true, none, true) := by
  decide

/-- Keys, worker and trace of a quota-free two-task batch execution run to
completion. -/
def okKeys : List String := ["page_1", "page_2"]

/-- Worker with no quota failures. -/
def okWorker : String → WOut := fun _ => .ok okImgResult

/-- A complete interleaved execution of the quota-free batch. -/
def okTrace : List (Nat × BEv) :=
  [(0, .start "page_1"), (0, .start "page_2"), (1, .finish "page_1"),
   (2, .collect "page_1"), (3, .finish "page_2"), (4, .collect "page_2")]

/-- Final state of the quota-free execution. -/
def okFinal : BState :=
  ⟨false, ["page_1", "page_2"],
   [("page_1", .ok okImgResult), ("page_2", .ok okImgResult)],
   ["page_1", "page_2"],
   [("page_1", 1), ("page_2", 3)],
   [("page_1", okImgResult), ("page_2", okImgResult)],
   false, 4⟩

/-- Witness for `batch_outcome_keys` on the quota-free execution. -/
theorem batch_outcome_keys_witness :
    (okFinal.results.map Prod.fst).Nodup
    ∧ (okFinal.results.lookup "page_1").isSome
    ∧ (okFinal.results.lookup "page_2").isSome := by
  have h := batch_outcome_keys okKeys okWorker okTrace okFinal
    (by decide) (by decide)
  exact ⟨h.1, h.2.2 (by decide) "page_1" (by decide),
    h.2.2 (by decide) "page_2" (by decide)⟩

/-- Prefix of a trace in which task 1 finishes with the quota failure. -/
def tripT1 : List (Nat × BEv) := [(0, .start "page_1"), (1, .finish "page_1")]

/-- State after `tripT1`: the shared flag is set. -/
def tripS1 : BState :=
  ⟨true, ["page_1"], [("page_1", .ok quotaFailResult)], ["page_1"],
   [("page_1", 1)], [], false, 1⟩

/-- State after task 2 then starts: it is fixed to the skip result and the
worker is not invoked. -/
def tripS2 : BState :=
  ⟨true, ["page_1", "page_2"],
   [("page_1", .ok quotaFailResult), ("page_2", .ok skippedQuotaResult)],
   ["page_1"], [("page_1", 1)], [], false, 2⟩

/-- Witness for `batch_skip_after_trip` on a concrete trace. -/
theorem batch_skip_after_trip_witness :
    (∃ j r, tripS1.computed.lookup j = some (.ok r) ∧ isQuotaTrip r = true
      ∧ (tripS1.finishedAt.lookup j).isSome)
    ∧ tripS2.computed.lookup "page_2" = some (.ok skippedQuotaResult)
    ∧ "page_2" ∉ tripS2.invoked
    ∧ (∀ j w, tripS1.computed.lookup j = some w →
        tripS2.computed.lookup j = some w) :=
  batch_skip_after_trip cexKeys cexWorker tripT1 [] 2 "page_2" tripS1 tripS2
    (by decide) (by decide) (by decide)

/-- Single-task batch whose worker takes far longer than the 180 second
per-task budget before succeeding. -/
def slowKeys : List String := ["page_1"]

/-- Trace of the slow execution: the task starts at time 0 and finishes at
time 1000, and only then is its future yielded by `as_completed` and
collected. -/
def slowTrace : List (Nat × BEv) :=
  [(0, .start "page_1"), (1000, .finish "page_1"), (1000, .collect "page_1")]

/-- C4: a task overrunning the 180 second per-task timeout is not
converted into a transient timeout failure. Because `as_completed` yields
only futures that already completed, the `timeout = 180` argument of
`future.result` (app.py line 970) can never fire; the slow task's actual
success result is recorded after the full 1000 seconds, and no result
carrying the message timeout is ever synthesized. -/
theorem batch_timeout_never_fires :
    ((runBatch slowKeys okWorker slowTrace).map (fun st =>
      st.results.lookup "page_1")) = some (some okImgResult)
    ∧ okImgResult.success = true
    ∧ okImgResult.error ≠ some "timeout"
    ∧ 180 < 1000 - 0 := by
  decide

/-! ## Pipeline controller (`create_storybook`, app.py lines 1048-1189) -/

/-- The story structure dict returned by `generate_story_structure`,
kept opaque as a key-value list (Python truthiness of the dict is
emptiness of the list). -/
abbrev StoryStructure : Type := List (String × String)

/-- Outcome of a synchronous retry-guarded stage call: the success payload
or the failed result dict's error message. -/
inductive StageOut (α : Type)
  | ok (a : α)
  | fail (e : String)
deriving DecidableEq, Repr

/-- Audio result dict produced by `text_to_speech` and read by assembly
with `dict.get` defaults. -/
structure AudioResult where
  success : Bool
  audioUrl : Option String
  duration : Option Nat
  error : Option String
deriving DecidableEq, Repr

/-- One entry of `prompts_data`: (key, prompt, page_number, is_cover), as
produced by `generate_all_prompts_parallel` in completion order. -/
structure PromptEntry where
  key : String
  prompt : String
  pageNumber : Nat
  isCover : Bool
deriving DecidableEq, Repr

/-- Environment of one pipeline run: the outcomes the collaborating stages
deliver. The two stage calls are single synchronous results; the prompts
batch is a list in arbitrary completion order; the image and audio batch
outcomes are the dictionaries the two parallel jobs returned. -/
structure PipelineEnv where
  structureOut : StageOut StoryStructure
  pagesOut : StageOut (List String × String)
  promptsData : List PromptEntry
  imageResults : List (String × ImgResult)
  audioResults : List (String × AudioResult)

/-- Page entry of the assembled storybook dict (app.py lines 1137-1149). -/
structure PageData where
  pageNumber : Nat
  text : String
  imagePrompt : String
  imageData : String
  imageUrl : String
  success : Bool
  seed : String
  model : String
  audioUrl : String
  audioDuration : Nat
  audioSuccess : Bool
deriving DecidableEq, Repr

/-- Cover entry of the assembled storybook dict (app.py lines 1158-1168). -/
structure CoverData where
  imagePrompt : String
  imageData : String
  imageUrl : String
  success : Bool
  seed : String
  model : String
  audioUrl : String
  audioDuration : Nat
  audioSuccess : Bool
deriving DecidableEq, Repr

/-- The assembled storybook artifact. -/
structure Storybook where
  id : String
  storyStructure : StoryStructure
  pages : List PageData
  cover : CoverData
deriving DecidableEq, Repr

/-- The generation statistics (app.py lines 1177-1182). -/
structure GenStats where
  totalImages : Nat
  successfulImages : Nat
  failedImages : Nat
  quotaExhausted : Bool
deriving DecidableEq, Repr

/-- Default image result substituted for a missing page key
(app.py line 1134). -/
def defaultImgFail : ImgResult :=
  ⟨false, none, none, none, none, some "Generation failed", none⟩

/-- Default image result substituted for a missing cover key
(app.py line 1154). -/
def defaultCoverFail : ImgResult :=
  ⟨false, none, none, none, none, some "Cover generation failed", none⟩

/-- Default audio result substituted for a missing key
(app.py lines 1135, 1155). -/
def defaultAudioFail : AudioResult :=
  ⟨false, none, none, some "Audio generation failed"⟩

/-- Fallback cover prompt of the `next(...)` default (app.py line 1157). -/
def defaultCoverPrompt : String :=
  "scene magical storybook setting subjects friendly character in engaging pose style A painterly gouache illustration for a children's book cover. No text, no words, no letters, no Chinese characters, no English text in the image. Child-safe content only, no violence, no blood, no scary elements."

/-- Assembly of one page entry (app.py lines 1131-1151): the image and
audio results are looked up by key with failed defaults, the prompt is
`prompts_data[i][1]`. -/
def buildPage (promptsData : List PromptEntry)
    (imgs : List (String × ImgResult)) (auds : List (String × AudioResult))
    (i : Nat) (text : String) : PageData :=
  let key := "page_" ++ toString (i + 1)
  let ir := (imgs.lookup key).getD defaultImgFail
  let ar := (auds.lookup key).getD defaultAudioFail
  { pageNumber := i + 1
    text := text
    imagePrompt := ((promptsData.get? i).map PromptEntry.prompt).getD ""
    imageData := ir.imageData.getD ""
    imageUrl := ir.imageUrl.getD ""
    success := ir.success
    seed := ir.seed.getD ""
    model := ir.model.getD "midjourney"
    audioUrl := if ar.success then ar.audioUrl.getD "" else ""
    audioDuration := if ar.success then ar.duration.getD 0 else 0
    audioSuccess := ar.success }

/-- Assembly of the cover entry (app.py lines 1153-1168). -/
def buildCover (promptsData : List PromptEntry)
    (imgs : List (String × ImgResult)) (auds : List (String × AudioResult)) :
    CoverData :=
  let cr := (imgs.lookup "cover").getD defaultCoverFail
  let ca := (auds.lookup "cover").getD defaultAudioFail
  let cp := ((promptsData.find? (fun p => p.isCover)).map PromptEntry.prompt).getD
    defaultCoverPrompt
  { imagePrompt := cp
    imageData := cr.imageData.getD ""
    imageUrl := cr.imageUrl.getD ""
    success := cr.success
    seed := cr.seed.getD ""
    model := cr.model.getD "midjourney"
    audioUrl := if ca.success then ca.audioUrl.getD "" else ""
    audioDuration := if ca.success then ca.duration.getD 0 else 0
    audioSuccess := ca.success }

/-- The generation statistics computed from the image batch outcome
(app.py lines 1177-1182). -/
def mkStats (imgs : List (String × ImgResult)) : GenStats :=
  { totalImages := imgs.length
    successfulImages := (imgs.filter (fun kv => kv.2.success)).length
    failedImages := imgs.length - (imgs.filter (fun kv => kv.2.success)).length
    quotaExhausted := imgs.any (fun kv => kv.2.errorType == some "quota_exhausted") }

/-- The stages a run submits work to, in submission order. -/
inductive StageCall
  | structureStage
  | pagesStage
  | promptsStage
  | imagesStage
  | audioStage
deriving DecidableEq, Repr

/-- Result of a whole run: the failed stage result (no artifact), or the
assembled storybook with its statistics. -/
inductive RunOut
  | fail (e : String)
  | ok (sb : Storybook) (stats : GenStats)
deriving DecidableEq, Repr

/-- The pipeline controller (app.py lines 1048-1189): if the structure
stage fails its failed result is returned at once (app.py lines
1060-1062) and likewise for the pages stage (lines 1068-1070) — in both
cases before any prompt, image or audio batch is submitted; otherwise the
three batches run, every page and the cover are assembled totally from
the batch dictionaries, and the run returns success regardless of
failures inside the batches. The returned list records which stages were
submitted. `none` models the uncaught IndexError of `prompts_data[i]`
when the prompts list is shorter than the page list, which real runs
never produce. -/
def createStorybook (env : PipelineEnv) : Option (RunOut × List StageCall) :=
  match env.structureOut with
  | .fail e => some (.fail e, [.structureStage])
  | .ok s =>
    match env.pagesOut with
    | .fail e => some (.fail e, [.structureStage, .pagesStage])
    | .ok (pages, storyId) =>
      if pages.length ≤ env.promptsData.length then
        some (.ok
          { id := storyId
            storyStructure := s
            pages := pages.enum.map (fun it =>
              buildPage env.promptsData env.imageResults env.audioResults
                it.1 it.2)
            cover := buildCover env.promptsData env.imageResults
              env.audioResults }
          (mkStats env.imageResults),
          [.structureStage, .pagesStage, .promptsStage, .imagesStage,
           .audioStage])
      else none

/-- C5: if the structure stage or the page-text stage returns a failed
result, the run returns that stage's failed result — no artifact, and no
prompt, image or audio batch submitted; conversely, whenever both
synchronous stages succeed the run proceeds through all batches to
assembly and returns a (possibly partially failed) artifact, whatever
failures the batch dictionaries contain. -/
theorem createStorybook_stage_abort (env : PipelineEnv) :
    (∀ e, env.structureOut = .fail e →
      createStorybook env = some (.fail e, [.structureStage]))
    ∧ (∀ s e, env.structureOut = .ok s → env.pagesOut = .fail e →
      createStorybook env = some (.fail e, [.structureStage, .pagesStage]))
    ∧ (∀ s pages storyId, env.structureOut = .ok s →
      env.pagesOut = .ok (pages, storyId) →
      pages.length ≤ env.promptsData.length →
      ∃ sb stats, createStorybook env = some (.ok sb stats,
        [.structureStage, .pagesStage, .promptsStage, .imagesStage,
         .audioStage])) := by
  refine ⟨?_, ?_, ?_⟩
  · intro e h
    simp [createStorybook, h]
  · intro s e h1 h2
    simp [createStorybook, h1, h2]
  · intro s pages storyId h1 h2 hlen
    refine ⟨{ id := storyId
              storyStructure := s
              pages := pages.enum.map (fun it =>
                buildPage env.promptsData env.imageResults env.audioResults
                  it.1 it.2)
              cover := buildCover env.promptsData env.imageResults
                env.audioResults }, mkStats env.imageResults, ?_⟩
    simp only [createStorybook, h1, h2]
    rw [if_pos hlen]

/-- Environment whose structure stage fails fatally. -/
def envFailStruct : PipelineEnv :=
  ⟨.fail "Fatal: bad response", .fail "unused", [], [], []⟩

/-- Environment whose two synchronous stages succeed but whose batches
returned empty dictionaries (every unit failed or was dropped). -/
def envOk : PipelineEnv :=
  ⟨.ok [("story_overview", "o")], .ok (["text one"], "sid"),
   [⟨"page_1", "p1", 1, false⟩, ⟨"cover", "cp", 0, true⟩], [], []⟩

/-- Witness for `createStorybook_stage_abort`. -/
theorem createStorybook_stage_abort_witness :
    createStorybook envFailStruct
      = some (.fail "Fatal: bad response", [.structureStage])
    ∧ ∃ sb stats, createStorybook envOk = some (.ok sb stats,
      [.structureStage, .pagesStage, .promptsStage, .imagesStage,
       .audioStage]) :=
  ⟨(createStorybook_stage_abort envFailStruct).1 "Fatal: bad response" rfl,
   (createStorybook_stage_abort envOk).2.2 [("story_overview", "o")]
     ["text one"] "sid" rfl rfl (by decide)⟩

/-- C9: assembly is total in the batch dictionaries — for every page index
and for the cover an artifact entry is constructed; a key absent from the
image or audio dictionary yields a failed entry through the substituted
default result (which carries an error message) rather than a failing
lookup, so the artifact holds exactly one entry per page plus a cover,
each carrying a boolean success flag. -/
theorem createStorybook_assembly_total (env : PipelineEnv)
    (s : StoryStructure) (pages : List String) (storyId : String)
    (h1 : env.structureOut = .ok s) (h2 : env.pagesOut = .ok (pages, storyId))
    (hlen : pages.length ≤ env.promptsData.length) :
    ∃ sb stats log, createStorybook env = some (.ok sb stats, log)
    ∧ sb.pages.length = pages.length
    ∧ (∀ i, i < pages.length →
        ∃ pd, sb.pages.get? i = some pd
        ∧ pd.success = ((env.imageResults.lookup
            ("page_" ++ toString (i + 1))).getD defaultImgFail).success
        ∧ (env.imageResults.lookup ("page_" ++ toString (i + 1)) = none →
            pd.success = false)
        ∧ (env.audioResults.lookup ("page_" ++ toString (i + 1)) = none →
            pd.audioSuccess = false))
    ∧ sb.cover.success = ((env.imageResults.lookup "cover").getD
        defaultCoverFail).success
    ∧ (env.imageResults.lookup "cover" = none → sb.cover.success = false)
    ∧ defaultImgFail.success = false
    ∧ defaultImgFail.error = some "Generation failed" := by
  have hcs : createStorybook env = some (.ok
      { id := storyId
        storyStructure := s
        pages := pages.enum.map (fun it =>
          buildPage env.promptsData env.imageResults env.audioResults
            it.1 it.2)
        cover := buildCover env.promptsData env.imageResults
          env.audioResults }
      (mkStats env.imageResults),
      [.structureStage, .pagesStage, .promptsStage, .imagesStage,
       .audioStage]) := by
    simp only [createStorybook, h1, h2]
    rw [if_pos hlen]
  refine ⟨_, _, _, hcs, ?_, ?_, rfl, ?_, rfl, rfl⟩
  · simp
  · intro i hi
    have hp : pages.get? i = some (pages.get ⟨i, hi⟩) := List.get?_eq_get hi
    refine ⟨buildPage env.promptsData env.imageResults env.audioResults i
      (pages.get ⟨i, hi⟩), ?_, rfl, ?_, ?_⟩
    · simp only [List.get?_eq_getElem?, List.getElem?_map, List.getElem?_enum,
        List.getElem?_eq_getElem hi, Option.map_some']
      rfl
    · intro hmiss
      simp [buildPage, hmiss, defaultImgFail]
    · intro hmiss
      simp [buildPage, hmiss, defaultAudioFail]
  · intro hmiss
    simp [buildCover, hmiss, defaultCoverFail]

/-- Witness for `createStorybook_assembly_total` on a run whose image and
audio dictionaries are empty. -/
theorem createStorybook_assembly_total_witness :
    ∃ sb stats log, createStorybook envOk = some (.ok sb stats, log)
    ∧ sb.pages.length = (["text one"] : List String).length
    ∧ (∀ i, i < (["text one"] : List String).length →
        ∃ pd, sb.pages.get? i = some pd
        ∧ pd.success = ((envOk.imageResults.lookup
            ("page_" ++ toString (i + 1))).getD defaultImgFail).success
        ∧ (envOk.imageResults.lookup ("page_" ++ toString (i + 1)) = none →
            pd.success = false)
        ∧ (envOk.audioResults.lookup ("page_" ++ toString (i + 1)) = none →
            pd.audioSuccess = false))
    ∧ sb.cover.success = ((envOk.imageResults.lookup "cover").getD
        defaultCoverFail).success
    ∧ (envOk.imageResults.lookup "cover" = none → sb.cover.success = false)
    ∧ defaultImgFail.success = false
    ∧ defaultImgFail.error = some "Generation failed" :=
  createStorybook_assembly_total envOk [("story_overview", "o")] ["text one"]
    "sid" rfl rfl (by decide)

/-! ## Regeneration (`regenerate_failed_images`, app.py lines 1191-1277) -/

/-- One entry of `pages_to_regenerate` (app.py lines 1202-1223). -/
structure RegenInfo where
  key : String
  pageNumber : Nat
  text : String
  isCover : Bool
deriving DecidableEq, Repr

/-- Result dict of `regenerate_failed_images`: the early failure (missing
story structure), the nothing-to-do success message, or the success dict
carrying the counts. -/
inductive RegenOut
  | fail (e : String)
  | noWork (msg : String)
  | done (regenerated : Nat) (totalAttempted : Nat)
deriving DecidableEq, Repr

/-- Selection of the entries to regenerate (app.py lines 1201-1223): pages
whose success flag is false, restricted to the supplied page numbers when
a target list is given, then the cover (page number 0) under the same
condition. -/
def selectRegen (sb : Storybook) (targets : Option (List Nat)) :
    List RegenInfo :=
  (sb.pages.filterMap (fun p =>
    if !p.success && (match targets with
      | none => true
      | some ts => decide (p.pageNumber ∈ ts)) then
      some ⟨"page_" ++ toString p.pageNumber, p.pageNumber, p.text, false⟩
    else none))
  ++ (if !sb.cover.success && (targets.isNone
        || decide (0 ∈ targets.getD [])) then
      [⟨"cover", 0, "封面", true⟩]
    else [])

/-- In-place update of the first page entry carrying the given page number
(app.py lines 1261-1268): only `image_data`, the success flag and the
model field are overwritten. -/
def updateFirst : List PageData → Nat → ImgResult → List PageData
  | [], _, _ => []
  | p :: ps, n, r =>
    if p.pageNumber = n then
      { p with
        imageData := r.imageData.getD ""
        success := true
        model := r.model.getD "gemini-imagen" } :: ps
    else p :: updateFirst ps n r

/-- Application of one regenerated result to the artifact (app.py lines
1249-1268): successful results overwrite the matching cover or page entry
in place, failed results leave the artifact untouched. -/
def regenApply (sb : Storybook) (info : RegenInfo) (r : ImgResult) :
    Storybook :=
  if r.success then
    if info.isCover then
      { sb with cover := { sb.cover with
          imageData := r.imageData.getD ""
          success := true
          model := r.model.getD "gemini-imagen" } }
    else
      { sb with pages := updateFirst sb.pages info.pageNumber r }
  else sb

/-- The `regenerated_results` dict (app.py lines 1231-1241): one worker
call per selected entry, in selection order, later writes winning on key
collisions, read back as a function from keys. -/
def regenResultsOf (sel : List RegenInfo) (worker : RegenInfo → ImgResult) :
    String → Option ImgResult :=
  sel.foldl (fun d info => fun q =>
    if q = info.key then some (worker info) else d q) (fun _ => none)

/-- The update pass (app.py lines 1244-1268): each selected entry looks up
its regenerated result and applies it to the artifact in place. -/
def regenUpdate (sel : List RegenInfo) (worker : RegenInfo → ImgResult)
    (sb : Storybook) : Storybook :=
  sel.foldl (fun cur info =>
    match regenResultsOf sel worker info.key with
    | some r => regenApply cur info r
    | none => cur) sb

/-- Count of successful regenerations (app.py lines 1244-1250). -/
def regenSuccCount (sel : List RegenInfo) (worker : RegenInfo → ImgResult) :
    Nat :=
  (sel.filter (fun info =>
    match regenResultsOf sel worker info.key with
    | some r => r.success
    | none => false)).length

/-- The regeneration operation (app.py lines 1191-1277). The worker maps
one selected entry to the result of the prompt rebuild plus
`generate_image_gemini` call for it; the selected entries are processed
sequentially, one worker call at a time, by folds over the selection —
not through the thread-pool dispatcher. Returns the result dict and the
updated artifact. -/
def regenerate (sb : Storybook) (targets : Option (List Nat))
    (worker : RegenInfo → ImgResult) : RegenOut × Storybook :=
  if sb.storyStructure = [] then (.fail "缺少故事结构信息", sb)
  else if (selectRegen sb targets).isEmpty then
    (.noWork "没有需要重新生成的图片", sb)
  else
    (.done (regenSuccCount (selectRegen sb targets) worker)
      (selectRegen sb targets).length,
     regenUpdate (selectRegen sb targets) worker sb)

/-- Invariant preservation through a plain `List.foldl`. -/
theorem foldl_preserve {σ ε : Type} (P : σ → Prop) (f : σ → ε → σ) :
    ∀ (l : List ε), (∀ s e, e ∈ l → P s → P (f s e)) →
      ∀ s, P s → P (l.foldl f s) := by
  intro l
  induction l with
  | nil =>
    intro _ s hs
    simpa using hs
  | cons e l ih =>
    intro hstep s hs
    rw [List.foldl_cons]
    exact ih (fun s' e' he' hs' => hstep s' e' (List.mem_cons_of_mem _ he') hs')
      (f s e) (hstep s e (List.mem_cons_self _ _) hs)

/-- `updateFirst` keeps the length of the page list. -/
theorem updateFirst_length (ps : List PageData) (n : Nat) (r : ImgResult) :
    (updateFirst ps n r).length = ps.length := by
  induction ps with
  | nil => rfl
  | cons p ps ih =>
    unfold updateFirst
    split <;> simp [ih]

/-- `updateFirst` leaves every entry whose page number differs from the
updated one untouched. -/
theorem updateFirst_get?_of_ne (n : Nat) (r : ImgResult) :
    ∀ (ps : List PageData) (i : Nat) (pd : PageData),
      ps.get? i = some pd → pd.pageNumber ≠ n →
      (updateFirst ps n r).get? i = some pd := by
  intro ps
  induction ps with
  | nil =>
    intro i pd h
    simp at h
  | cons p ps ih =>
    intro i pd h hne
    unfold updateFirst
    split
    case isTrue heq =>
      cases i with
      | zero =>
        simp only [List.get?_cons_zero, Option.some.injEq] at h
        subst h
        exact absurd heq hne
      | succ i =>
        simpa using h
    case isFalse heq =>
      cases i with
      | zero =>
        simpa using h
      | succ i =>
        simp only [List.get?_cons_succ] at h ⊢
        exact ih i pd h hne

/-- Distinct positions of a page list with pairwise distinct page numbers
hold entries with distinct page numbers. -/
theorem nodup_pageNumbers_ne {l : List PageData}
    (h : (l.map PageData.pageNumber).Nodup)
    {i j : Nat} {p q : PageData}
    (hi : l.get? i = some p) (hj : l.get? j = some q) (hij : i ≠ j) :
    p.pageNumber ≠ q.pageNumber := by
  intro heq
  apply hij
  have hi' : (l.map PageData.pageNumber).get? i = some p.pageNumber := by
    rw [List.get?_eq_getElem?] at hi ⊢
    simp [List.getElem?_map, hi]
  have hj' : (l.map PageData.pageNumber).get? j = some q.pageNumber := by
    rw [List.get?_eq_getElem?] at hj ⊢
    simp [List.getElem?_map, hj]
  have hlen : i < (l.map PageData.pageNumber).length := by
    rw [List.get?_eq_getElem?] at hi'
    exact (List.getElem?_eq_some.mp hi').1
  refine List.getElem?_inj hlen h ?_
  rw [← List.get?_eq_getElem?, ← List.get?_eq_getElem?, hi', hj', heq]

/-- What membership in the regeneration selection means: a page entry
comes from an artifact page whose success flag is false (and whose number
is targeted, if targets are given); the cover entry is selected only when
the cover's success flag is false (and 0 is targeted, if targets are
given). -/
theorem selectRegen_mem (sb : Storybook) (targets : Option (List Nat))
    (info : RegenInfo) (h : info ∈ selectRegen sb targets) :
    (info.isCover = false
      ∧ (∃ j q, sb.pages.get? j = some q ∧ q.success = false
          ∧ q.pageNumber = info.pageNumber)
      ∧ (∀ ts, targets = some ts → info.pageNumber ∈ ts))
    ∨ (info.isCover = true ∧ sb.cover.success = false
      ∧ (∀ ts, targets = some ts → 0 ∈ ts)) := by
  unfold selectRegen at h
  rcases List.mem_append.mp h with hpage | hcover
  · left
    obtain ⟨p, hp, hf⟩ := List.mem_filterMap.mp hpage
    split at hf
    case isTrue hcond =>
      simp only [Option.some.injEq] at hf
      subst hf
      rw [Bool.and_eq_true] at hcond
      obtain ⟨hsucc, htarg⟩ := hcond
      obtain ⟨j, hj⟩ := List.mem_iff_get?.mp hp
      refine ⟨rfl, ⟨j, p, hj, by simpa using hsucc, rfl⟩, ?_⟩
      intro ts hts
      subst hts
      simpa using htarg
    case isFalse => simp at hf
  · right
    split at hcover
    case isTrue hcond =>
      simp only [List.mem_singleton] at hcover
      subst hcover
      rw [Bool.and_eq_true] at hcond
      obtain ⟨hsucc, htarg⟩ := hcond
      refine ⟨rfl, by simpa using hsucc, ?_⟩
      intro ts hts
      subst hts
      simpa using htarg
    case isFalse => simp at hcover

/-- Frame property relating the artifact before regeneration to a state
of the update pass: previously succeeded pages, untargeted pages, a
previously succeeded or untargeted cover, and the page count are all
unchanged. -/
def RegenFrame (sb : Storybook) (targets : Option (List Nat))
    (cur : Storybook) : Prop :=
  (∀ i pd, sb.pages.get? i = some pd → pd.success = true →
    cur.pages.get? i = some pd)
  ∧ (sb.cover.success = true → cur.cover = sb.cover)
  ∧ (∀ ts, targets = some ts →
    (∀ i pd, sb.pages.get? i = some pd → pd.pageNumber ∉ ts →
      cur.pages.get? i = some pd)
    ∧ (0 ∉ ts → cur.cover = sb.cover))
  ∧ cur.pages.length = sb.pages.length

/-- Applying one regenerated result for a selected entry preserves the
frame property. -/
theorem regenApply_frame (sb : Storybook) (targets : Option (List Nat))
    (cur : Storybook) (info : RegenInfo) (r : ImgResult)
    (hnodup : (sb.pages.map PageData.pageNumber).Nodup)
    (hmem : info ∈ selectRegen sb targets)
    (hP : RegenFrame sb targets cur) :
    RegenFrame sb targets (regenApply cur info r) := by
  unfold regenApply
  split
  case isFalse => exact hP
  case isTrue =>
    rcases selectRegen_mem sb targets info hmem with
      ⟨hnc, ⟨j, q, hj, hqf, hqn⟩, htarg⟩ | ⟨hc, hcf, htarg⟩
    · rw [hnc]
      simp only [Bool.false_eq_true, if_false]
      refine ⟨?_, ?_, ?_, ?_⟩
      · intro i pd hi hsucc
        have hij : i ≠ j := by
          intro heq
          subst heq
          rw [hi] at hj
          cases hj
          rw [hsucc] at hqf
          cases hqf
        have hne : pd.pageNumber ≠ info.pageNumber := by
          rw [← hqn]
          exact nodup_pageNumbers_ne hnodup hi hj hij
        exact updateFirst_get?_of_ne info.pageNumber r cur.pages i pd
          (hP.1 i pd hi hsucc) hne
      · intro hcov
        exact hP.2.1 hcov
      · intro ts hts
        refine ⟨?_, ?_⟩
        · intro i pd hi hnot
          have hne : pd.pageNumber ≠ info.pageNumber := by
            intro heq
            exact hnot (heq ▸ htarg ts hts)
          exact updateFirst_get?_of_ne info.pageNumber r cur.pages i pd
            ((hP.2.2.1 ts hts).1 i pd hi hnot) hne
        · intro h0
          exact (hP.2.2.1 ts hts).2 h0
      · rw [updateFirst_length]
        exact hP.2.2.2
    · rw [hc]
      simp only [if_true]
      refine ⟨hP.1, ?_, ?_, hP.2.2.2⟩
      · intro hcov
        rw [hcov] at hcf
        cases hcf
      · intro ts hts
        exact ⟨(hP.2.2.1 ts hts).1, fun h0 => absurd (htarg ts hts) h0⟩

/-- The whole update pass preserves the frame property. -/
theorem regenUpdate_frame (sb : Storybook) (targets : Option (List Nat))
    (worker : RegenInfo → ImgResult)
    (hnodup : (sb.pages.map PageData.pageNumber).Nodup) :
    RegenFrame sb targets (regenUpdate (selectRegen sb targets) worker sb) := by
  unfold regenUpdate
  exact foldl_preserve (RegenFrame sb targets) _ (selectRegen sb targets)
    (by
      intro cur info hmem hP
      cases hres : regenResultsOf (selectRegen sb targets) worker info.key with
      | none => exact hP
      | some r => exact regenApply_frame sb targets cur info r hnodup hmem hP)
    sb
    ⟨fun i pd h _ => h, fun _ => rfl,
     fun ts _ => ⟨fun i pd h _ => h, fun _ => rfl⟩, rfl⟩

/-- C8: regeneration mutates only artifact entries whose prior image
success flag is false — further restricted to the supplied page numbers
when a target list is given, the cover being addressed as page 0 — and
leaves every previously succeeded page and cover entry unchanged; the page
list keeps its length. The selected entries are processed sequentially by
folds over the selection, one worker call per entry (see `regenerate` and
`regenResultsOf`), not through the batch dispatcher. -/
theorem regenerate_frame (sb : Storybook) (targets : Option (List Nat))
    (worker : RegenInfo → ImgResult)
    (hnodup : (sb.pages.map PageData.pageNumber).Nodup) :
    (∀ i pd, sb.pages.get? i = some pd → pd.success = true →
      (regenerate sb targets worker).2.pages.get? i = some pd)
    ∧ (sb.cover.success = true →
      (regenerate sb targets worker).2.cover = sb.cover)
    ∧ (∀ ts, targets = some ts →
      (∀ i pd, sb.pages.get? i = some pd → pd.pageNumber ∉ ts →
        (regenerate sb targets worker).2.pages.get? i = some pd)
      ∧ (0 ∉ ts → (regenerate sb targets worker).2.cover = sb.cover))
    ∧ (regenerate sb targets worker).2.pages.length = sb.pages.length := by
  by_cases h1 : sb.storyStructure = []
  · unfold regenerate
    rw [if_pos h1]
    exact ⟨fun i pd h _ => h, fun _ => rfl,
      fun ts _ => ⟨fun i pd h _ => h, fun _ => rfl⟩, rfl⟩
  · by_cases h2 : (selectRegen sb targets).isEmpty = true
    · unfold regenerate
      rw [if_neg h1, if_pos h2]
      exact ⟨fun i pd h _ => h, fun _ => rfl,
        fun ts _ => ⟨fun i pd h _ => h, fun _ => rfl⟩, rfl⟩
    · unfold regenerate
      rw [if_neg h1, if_neg h2]
      exact regenUpdate_frame sb targets worker hnodup

/-- A page entry whose image succeeded. -/
def pdOkW : PageData :=
  ⟨1, "t1", "p1", "img1", "", true, "", "gemini-imagen", "", 0, false⟩

/-- A page entry whose image failed. -/
def pdFailW : PageData :=
  ⟨2, "t2", "p2", "", "", false, "", "midjourney", "", 0, false⟩

/-- A failed cover entry. -/
def coverFailW : CoverData :=
  ⟨"cp", "", "", false, "", "midjourney", "", 0, false⟩

/-- A concrete artifact with one succeeded page, one failed page and a
failed cover. -/
def sbW : Storybook :=
  { id := "sid"
    storyStructure := [("story_overview", "o")]
    pages := [pdOkW, pdFailW]
    cover := coverFailW }

/-- Regeneration worker that always succeeds. -/
def regenWorkerW : RegenInfo → ImgResult := fun _ => okImgResult

/-- Witness for `regenerate_frame`: on the concrete artifact the
previously succeeded page is byte-identical after regeneration and the
page count is kept. -/
theorem regenerate_frame_witness :
    (sbW.pages.map PageData.pageNumber).Nodup
    ∧ (regenerate sbW none regenWorkerW).2.pages.get? 0 = some pdOkW
    ∧ (regenerate sbW none regenWorkerW).2.pages.length = sbW.pages.length :=
  ⟨by decide,
   (regenerate_frame sbW none regenWorkerW (by decide)).1 0 pdOkW
     (by decide) (by decide),
   (regenerate_frame sbW none regenWorkerW (by decide)).2.2.2⟩

/-! ## Generator instance state (`StoryBookGenerator`, app.py lines
294-310; `api_check_quota_status`, app.py lines 1958-1972) -/

/-- The mutable per-instance state of `StoryBookGenerator` relevant to
quota reporting: the current storybook, the `quota_exhausted` attribute,
the `last_quota_check` attribute and whether a logger session is
attached. -/
structure GenState where
  currentStorybook : Option Storybook
  quotaExhausted : Bool
  lastQuotaCheck : Option String
  loggerActive : Bool

/-- The constructor `__init__` (app.py lines 295-310): the quota flag
starts false and the last check is unset. -/
def initGenState : GenState := ⟨none, false, none, false⟩

/-- The operations that mutate the generator instance: a full
`create_storybook` run (through the route that stores the result), a
`regenerate_failed_images` call through its route (app.py lines
1944-1951), and the quota status query. -/
inductive GenOp
  | runCreate (env : PipelineEnv)
  | runRegenerate (targets : Option (List Nat))
      (worker : RegenInfo → ImgResult)
  | checkQuota

/-- Effect of one operation on the instance state: `create_storybook`
attaches a logger session and stores the new storybook on success
(app.py lines 1050-1052, 1170); the regenerate route replaces the current
storybook when an updated one is returned; the quota query only reads.
None of them assigns `quota_exhausted` — the flag set during an image
batch is the per-batch closure variable of `generate_images_parallel`,
not this attribute. -/
def applyOp (st : GenState) : GenOp → GenState
  | .runCreate env =>
    match createStorybook env with
    | some (.ok sb _, _) => { st with
        loggerActive := true
        currentStorybook := some sb }
    | _ => { st with loggerActive := true }
  | .runRegenerate targets worker =>
    match st.currentStorybook with
    | none => st
    | some sb =>
      match regenerate sb targets worker with
      | (.done _ _, sb2) => { st with currentStorybook := some sb2 }
      | _ => st
  | .checkQuota => st

/-- A sequence of operations starting from a fresh generator. -/
def runOps (ops : List GenOp) : GenState := ops.foldl applyOp initGenState

/-- The quota flag reported by `api_check_quota_status`
(app.py line 1965). -/
def quotaStatusReport (st : GenState) : Bool := st.quotaExhausted

/-- C10: the instance attribute `quota_exhausted` is initialized to false
and never mutated by any operation — the quota flag tripped during an
image batch is a separate per-batch closure variable — so the quota
status query reports false after every operation sequence, even one whose
runs encountered quota exhaustion. -/
theorem quota_flag_never_set (ops : List GenOp) :
    initGenState.quotaExhausted = false
    ∧ (runOps ops).quotaExhausted = false
    ∧ quotaStatusReport (runOps ops) = false := by
  have hstep : ∀ st op, (applyOp st op).quotaExhausted = st.quotaExhausted := by
    intro st op
    cases op with
    | runCreate env =>
      simp only [applyOp]
      cases createStorybook env with
      | none => rfl
      | some out =>
        obtain ⟨ro, log⟩ := out
        cases ro <;> rfl
    | runRegenerate targets worker =>
      simp only [applyOp]
      cases st.currentStorybook with
      | none => rfl
      | some sb =>
        dsimp only
        cases hr : regenerate sb targets worker with
        | mk out sb2 => cases out <;> rfl
    | checkQuota => rfl
  have hall : ∀ (l : List GenOp) (st : GenState),
      (l.foldl applyOp st).quotaExhausted = st.quotaExhausted := by
    intro l
    induction l with
    | nil => intro st; rfl
    | cons op l ih =>
      intro st
      rw [List.foldl_cons, ih, hstep]
  exact ⟨rfl, hall ops initGenState, hall ops initGenState⟩
